import Mathlib

/-!
# Verification of `dc_integration/distribution/vmfcacgmm.py`

Shallow embedding of the von-Mises-Fisher / complex-angular-central-Gaussian
mixture model (`VMFCACGMM`) and its EM trainer (`GCACGMMTrainer`).

Modelling conventions:
* numpy arrays indexed by (F, T, D) etc. become curried functions over `Fin`;
  real/complex floating values become `ℝ`/`ℂ` (exact real semantics).
* `np.finfo(dtype).tiny` (the float64 smallest positive normal) is the
  constant `tiny = 2 ^ (-1022)`.
* The vMF and CACG sub-distributions are external collaborators (their own
  fitting and density routines live outside this file's source); they are
  modelled as opaque records carrying their density functions, and the
  trainer carries the two sub-fitters as black-box fields, per the
  collaborator contracts (vMF evaluator consumes the flattened
  `(F*T, E)` batch; CACG evaluator returns a log-density and a quadratic
  form, both of shape `(F, K, T)`).
* `np.iscomplexobj` is a dtype-level predicate, independent of the stored
  values; inputs to the public entry points are therefore paired with a
  dtype tag (`TaggedObs` / `TaggedEmb`).
* Python `assert` failures and the `UnboundLocalError` raised by
  `return model` when the loop body never ran are modelled by
  `Except FitError`.
* `np.random.uniform` in `fit`'s `num_classes` branch is modelled by an
  explicit `rand` argument holding the drawn values (externally seedable).
* The `covariance_type` parameter of `fit` is accepted and never used by the
  source; it is omitted here.
* In `_m_step`, `np.einsum("...kn->...k", masked_affiliations)` contracts
  only the trailing time axis, so the computed weight has shape `(F, K)`
  (per-frequency), even though the dataclass annotation reads `(K,)`;
  the embedding reproduces the computed shape:
  `weight : Fin F → Fin K → ℝ`.  A `(K,)` weight corresponds to a
  function constant in its first argument, and `_predict`'s broadcast
  `np.log(self.weight)[..., :, None]` is the same formula either way.
-/

/-- `np.finfo(np.float64).tiny`: the smallest positive normal double,
`2 ^ (-1022)`, used as a division floor. -/
noncomputable def tiny : ℝ := (2 : ℝ) ^ (-1022 : ℤ)

/-- Complex observation array of shape (F, T, D). -/
abbrev Obs (F T D : ℕ) := Fin F → Fin T → Fin D → ℂ

/-- Real embedding array of shape (F, T, E). -/
abbrev Emb (F T E : ℕ) := Fin F → Fin T → Fin E → ℝ

/-- Affiliation / responsibility array of shape (F, K, T). -/
abbrev Affil (F K T : ℕ) := Fin F → Fin K → Fin T → ℝ

/-- Saliency array of shape (F, T). -/
abbrev Sal (F T : ℕ) := Fin F → Fin T → ℝ

/-- `np.linalg.norm(v)` for a complex vector: the L2 norm along the last
axis. -/
noncomputable def cnorm {D : ℕ} (v : Fin D → ℂ) : ℝ :=
  Real.sqrt (∑ d, Complex.abs (v d) ^ 2)

/-- `np.linalg.norm(v)` for a real vector. -/
noncomputable def rnorm {E : ℕ} (v : Fin E → ℝ) : ℝ :=
  Real.sqrt (∑ e, v e ^ 2)

/-- `observation / np.maximum(np.linalg.norm(observation, axis=-1,
keepdims=True), tiny)`: L2-normalization along D with the tiny floor. -/
noncomputable def unitNormObs {F T D : ℕ} (x : Obs F T D) : Obs F T D :=
  fun f t d => x f t d / ((max (cnorm (x f t)) tiny : ℝ) : ℂ)

/-- `embedding / np.maximum(np.linalg.norm(embedding, axis=-1,
keepdims=True), tiny)`: L2-normalization along E with the tiny floor. -/
noncomputable def unitNormEmb {F T E : ℕ} (x : Emb F T E) : Emb F T E :=
  fun f t e => x f t e / max (rnorm (x f t)) tiny

/-- C-order flat index of `(f, t)` in a reshaped `(F*T,)` axis: `f*T + t`. -/
def idxFT {F T : ℕ} (f : Fin F) (t : Fin T) : Fin (F * T) :=
  ⟨f.val * T + t.val, by
    calc f.val * T + t.val < f.val * T + T := by omega
      _ = (f.val + 1) * T := by ring
      _ ≤ F * T := Nat.mul_le_mul_right T f.isLt⟩

/-- First component of the inverse of the C-order flattening `(F,T) → F*T`. -/
def unflatF {F T : ℕ} (n : Fin (F * T)) : Fin F :=
  ⟨n.val / T, Nat.div_lt_of_lt_mul (lt_of_lt_of_le n.isLt (le_of_eq (Nat.mul_comm F T)))⟩

/-- Second component of the inverse of the C-order flattening `(F,T) → F*T`. -/
def unflatT {F T : ℕ} (n : Fin (F * T)) : Fin T :=
  ⟨n.val % T, Nat.mod_lt _ (by
    rcases Nat.eq_zero_or_pos T with h | h
    · exfalso
      have hn : (n : ℕ) < F * T := n.isLt
      have h0 : F * T = 0 := by rw [h, Nat.mul_zero]
      omega
    · exact h)⟩

/-- `np.reshape(embedding, (1, F*T, E))` in C order (the leading singleton
batch axis is dropped from the model). -/
noncomputable def reshapeEmb {F T E : ℕ} (x : Emb F T E) : Fin (F * T) → Fin E → ℝ :=
  fun n e => x (unflatF n) (unflatT n) e

/-- External collaborator: a fitted von Mises-Fisher distribution, reduced to
its density contract `log_pdf(samples: (1, N, E)) → (K, N)`; in this file it
is only ever evaluated at `N = F*T`. -/
structure VonMisesFisher (E K N : ℕ) where
  log_pdf : (Fin N → Fin E → ℝ) → Fin K → Fin N → ℝ

/-- External collaborator: a fitted complex angular central Gaussian,
reduced to its density contract
`_log_pdf(samples) → (log-density (F,K,T), quadratic_form (F,K,T))`
(the broadcast singleton class axis of `observation[..., None, :, :]` is
dropped from the model). -/
structure ComplexAngularCentralGaussian (D K F T : ℕ) where
  log_pdf_qf : Obs F T D → Affil F K T × Affil F K T

/-- The model dataclass: class weights plus the two fitted sub-distributions.
See the header note on the `(F, K)` weight layout computed by `_m_step`. -/
structure VMFCACGMM (F T K D E : ℕ) where
  weight : Fin F → Fin K → ℝ
  vmf : VonMisesFisher E K (F * T)
  cacg : ComplexAngularCentralGaussian D K F T

/-- The vMF log-density term of `_predict`:
`np.transpose(np.reshape(vmf.log_pdf(np.reshape(embedding, (1, F*T, E))),
(num_classes, F, T)), (1, 0, 2))`, i.e. entry `(f, k, t)` is the flat batch
entry `(k, f*T + t)`. -/
noncomputable def VMFCACGMM.vmfGrid {F T K D E : ℕ} (m : VMFCACGMM F T K D E)
    (embedding : Emb F T E) : Affil F K T :=
  fun f k t => m.vmf.log_pdf (reshapeEmb embedding) k (idxFT f t)

/-- The joint log-score of `_predict`:
`np.log(self.weight)[..., :, None] + cacg_log_pdf + vmf_log_pdf`. -/
noncomputable def VMFCACGMM.jointLog {F T K D E : ℕ} (m : VMFCACGMM F T K D E)
    (observation : Obs F T D) (embedding : Emb F T E) : Affil F K T :=
  fun f k t =>
    Real.log (m.weight f k) + (m.cacg.log_pdf_qf observation).1 f k t
      + m.vmfGrid embedding f k t

/-- The exponentiated, max-shifted score of `_predict`:
`affiliation -= np.max(affiliation, axis=-2, keepdims=True);
np.exp(affiliation, out=affiliation)`. -/
noncomputable def VMFCACGMM.shiftedExp {F T K D E : ℕ} (m : VMFCACGMM F T K D E)
    (observation : Obs F T D) (embedding : Emb F T E) : Affil F K T :=
  fun f k t =>
    Real.exp (m.jointLog observation embedding f k t
      - ⨆ j, m.jointLog observation embedding f j t)

/-- The posterior denominator of `_predict`:
`np.maximum(np.einsum("...kn->...n", affiliation)[..., None, :], tiny)`. -/
noncomputable def VMFCACGMM.denom {F T K D E : ℕ} (m : VMFCACGMM F T K D E)
    (observation : Obs F T D) (embedding : Emb F T E) : Sal F T :=
  fun f t => max (∑ k, m.shiftedExp observation embedding f k t) tiny

/-- `VMFCACGMM._predict`: the internal joint-posterior routine; returns the
normalized affiliation together with the CACG quadratic form. -/
noncomputable def VMFCACGMM._predict {F T K D E : ℕ} (m : VMFCACGMM F T K D E)
    (observation : Obs F T D) (embedding : Emb F T E) :
    Affil F K T × Affil F K T :=
  (fun f k t =>
      m.shiftedExp observation embedding f k t / m.denom observation embedding f t,
   (m.cacg.log_pdf_qf observation).2)

/-- A numpy array together with its dtype-level complexity flag
(`np.iscomplexobj`; `np.isrealobj` is its negation).  The flag is a property
of the dtype, not of the stored values. -/
structure TaggedObs (F T D : ℕ) where
  isComplexObj : Bool
  val : Obs F T D

/-- Real-or-complex-tagged embedding array; when the tag is `true` the
type-contract assertion fails before the values are ever consumed. -/
structure TaggedEmb (F T E : ℕ) where
  isComplexObj : Bool
  val : Emb F T E

/-- The failure modes of the public entry points: the two `assert`-style
contract violations and the `UnboundLocalError` at `return model` when the
EM loop body never executed. -/
inductive FitError
  | incompatibleInputs
  | observationNotComplex
  | embeddingNotReal
  | unboundLocalModel
  deriving DecidableEq

/-- The affiliation returned by `predict` after both inputs have been
unit-normalized: `self._predict(observation, embedding)[0]`. -/
noncomputable def VMFCACGMM.predictBody {F T K D E : ℕ} (m : VMFCACGMM F T K D E)
    (observation : Obs F T D) (embedding : Emb F T E) : Affil F K T :=
  (m._predict (unitNormObs observation) (unitNormEmb embedding)).1

/-- `VMFCACGMM.predict`: asserts the dtype contract, unit-normalizes both
inputs along their last axes (with the tiny floor) and returns only the
affiliation from `_predict`. -/
noncomputable def VMFCACGMM.predict {F T K D E : ℕ} (m : VMFCACGMM F T K D E)
    (observation : TaggedObs F T D) (embedding : TaggedEmb F T E) :
    Except FitError (Affil F K T) :=
  if observation.isComplexObj = false then .error .observationNotComplex
  else if embedding.isComplexObj = true then .error .embeddingNotReal
  else .ok (m.predictBody observation.val embedding.val)

/-- The EM trainer; its two fields are the black-box single-component
sub-fitters `VonMisesFisherTrainer()._fit` and
`ComplexAngularCentralGaussianTrainer()._fit` (external collaborators),
with the argument lists used at their call sites in `_m_step`. -/
structure GCACGMMTrainer (F T K D E : ℕ) where
  vmfFit : (Fin (F * T) → Fin E → ℝ) → (Fin K → Fin (F * T) → ℝ) → ℝ → ℝ →
    VonMisesFisher E K (F * T)
  cacgFit : Obs F T D → Affil F K T → Affil F K T → Bool → Bool → ℝ →
    ComplexAngularCentralGaussian D K F T

/-- `GCACGMMTrainer._m_step`: masked affiliations, the per-frequency weight
update (`einsum("...kn->...k")` over T, divided by `einsum("...n->...")` of
the saliency over T), and the two delegated sub-fits (the vMF fit on the
flattened `(F*T, E)` batch with the `(K, F*T)` transposed-reshaped masked
affiliations, the CACG fit on the observation with the carried quadratic
form). -/
noncomputable def GCACGMMTrainer._m_step {F T K D E : ℕ}
    (tr : GCACGMMTrainer F T K D E)
    (observation : Obs F T D) (embedding : Emb F T E)
    (quadratic_form : Affil F K T) (affiliation : Affil F K T)
    (saliency : Sal F T)
    (min_concentration max_concentration : ℝ)
    (hermitize trace_norm : Bool) (eigenvalue_floor : ℝ) :
    VMFCACGMM F T K D E :=
  let masked_affiliations : Affil F K T :=
    fun f k t => affiliation f k t * saliency f t
  let weight : Fin F → Fin K → ℝ :=
    fun f k => (∑ t, masked_affiliations f k t) / (∑ t, saliency f t)
  let vmf := tr.vmfFit (reshapeEmb embedding)
    (fun k n => masked_affiliations (unflatF n) k (unflatT n))
    min_concentration max_concentration
  let cacg := tr.cacgFit observation masked_affiliations quadratic_form
    hermitize trace_norm eigenvalue_floor
  ⟨weight, vmf, cacg⟩

/-- The body of one pass of `fit`'s loop as a fuel-indexed recursion on the
remaining iteration count: `0` remaining iterations never bind `model`
(`none`); on the last iteration the E-step is skipped and the freshly
produced model is returned; otherwise the new model's `_predict` recomputes
`(affiliation, quadratic_form)` for the next round. -/
noncomputable def GCACGMMTrainer.fitStep {F T K D E : ℕ}
    (tr : GCACGMMTrainer F T K D E)
    (observation : Obs F T D) (embedding : Emb F T E) (saliency : Sal F T)
    (min_concentration max_concentration : ℝ)
    (hermitize trace_norm : Bool) (eigenvalue_floor : ℝ) :
    Affil F K T → Affil F K T → ℕ → Option (VMFCACGMM F T K D E)
  | _, _, 0 => none
  | affiliation, quadratic_form, 1 =>
      some (tr._m_step observation embedding quadratic_form affiliation saliency
        min_concentration max_concentration hermitize trace_norm eigenvalue_floor)
  | affiliation, quadratic_form, n + 2 =>
      let model := tr._m_step observation embedding quadratic_form affiliation
        saliency min_concentration max_concentration hermitize trace_norm
        eigenvalue_floor
      let aq := model._predict observation embedding
      tr.fitStep observation embedding saliency min_concentration
        max_concentration hermitize trace_norm eigenvalue_floor aq.1 aq.2 (n + 1)

/-- One EM round as a state transformer on `(affiliation, quadratic_form)`:
the M-step followed by the new model's `_predict` (the E-step). -/
noncomputable def GCACGMMTrainer.emUpdate {F T K D E : ℕ}
    (tr : GCACGMMTrainer F T K D E)
    (observation : Obs F T D) (embedding : Emb F T E) (saliency : Sal F T)
    (min_concentration max_concentration : ℝ)
    (hermitize trace_norm : Bool) (eigenvalue_floor : ℝ) :
    Affil F K T × Affil F K T → Affil F K T × Affil F K T :=
  fun aq =>
    (tr._m_step observation embedding aq.2 aq.1 saliency min_concentration
      max_concentration hermitize trace_norm eigenvalue_floor)._predict
      observation embedding

/-- The model produced by an M-step from an `(affiliation, quadratic_form)`
state. -/
noncomputable def GCACGMMTrainer.lastModel {F T K D E : ℕ}
    (tr : GCACGMMTrainer F T K D E)
    (observation : Obs F T D) (embedding : Emb F T E) (saliency : Sal F T)
    (min_concentration max_concentration : ℝ)
    (hermitize trace_norm : Bool) (eigenvalue_floor : ℝ) :
    Affil F K T × Affil F K T → VMFCACGMM F T K D E :=
  fun aq =>
    tr._m_step observation embedding aq.2 aq.1 saliency min_concentration
      max_concentration hermitize trace_norm eigenvalue_floor

/-- The `return model` statement at the end of `fit`: when the loop ran at
least once the (last) bound model is returned, otherwise the name `model`
is unbound and the call fails with `UnboundLocalError`. -/
noncomputable def returnModel {F T K D E : ℕ} :
    Option (VMFCACGMM F T K D E) → Except FitError (VMFCACGMM F T K D E)
  | none => .error .unboundLocalModel
  | some model => .ok model

/-- `GCACGMMTrainer.fit`: the exactly-one-of assertion on
`initialization`/`num_classes`, the dtype assertions, the one up-front
unit-normalization of the observation (the embedding is left untouched),
the uniform-random initialization normalized over the class axis when only
`num_classes` is given (`rand` holds the drawn uniforms; the drawn shape
`(F, num_classes, T)` is carried by the type index `K`), the all-ones
saliency default, the all-ones initial quadratic form, and the EM loop. -/
noncomputable def GCACGMMTrainer.fit {F T K D E : ℕ}
    (tr : GCACGMMTrainer F T K D E)
    (observation : TaggedObs F T D) (embedding : TaggedEmb F T E)
    (initialization : Option (Affil F K T)) (num_classes : Option ℕ)
    (rand : Affil F K T) (iterations : ℕ) (saliency : Option (Sal F T))
    (min_concentration max_concentration : ℝ)
    (hermitize trace_norm : Bool) (eigenvalue_floor : ℝ) :
    Except FitError (VMFCACGMM F T K D E) :=
  if xor initialization.isNone num_classes.isNone = false then
    .error .incompatibleInputs
  else if observation.isComplexObj = false then .error .observationNotComplex
  else if embedding.isComplexObj = true then .error .embeddingNotReal
  else
    let obs := unitNormObs observation.val
    let init : Affil F K T :=
      match initialization with
      | some a => a
      | none => fun f k t => rand f k t / ∑ j, rand f j t
    let sal : Sal F T := saliency.getD (fun _ _ => 1)
    returnModel (tr.fitStep obs embedding.val sal min_concentration
      max_concentration hermitize trace_norm eigenvalue_floor init
      (fun _ _ _ => 1) iterations)

/-- Concrete model (all dimensions 1) used to instantiate theorems with
hypotheses: weight 1, sub-distribution log-densities constant. -/
noncomputable def witModel : VMFCACGMM 1 1 1 1 1 :=
  ⟨fun _ _ => 1, ⟨fun _ _ _ => 0⟩, ⟨fun _ => (fun _ _ _ => 0, fun _ _ _ => 1)⟩⟩

/-- Concrete complex observation, all entries 1. -/
noncomputable def witObsV : Obs 1 1 1 := fun _ _ _ => 1

/-- Concrete real embedding, all entries 0. -/
noncomputable def witEmbV : Emb 1 1 1 := fun _ _ _ => 0

/-- Concrete all-zero complex observation (degenerate-row scenario). -/
noncomputable def zeroObsV : Obs 1 1 1 := fun _ _ _ => 0

/-- A trainer over F=2, T=1, K=2 with trivial sub-fitters; the weight update
does not depend on the sub-fitters. -/
noncomputable def trainerF2K2 : GCACGMMTrainer 2 1 2 1 1 :=
  ⟨fun _ _ _ _ => ⟨fun _ _ _ => 0⟩,
   fun _ _ _ _ _ _ => ⟨fun _ => (fun _ _ _ => 0, fun _ _ _ => 0)⟩⟩

/-- Affiliation over (F=2, K=2, T=1) putting frequency `f` entirely on
class `k = f`; every (f, t) row sums to 1 over the class axis. -/
noncomputable def affF2K2 : Affil 2 2 1 := fun f k _ => if f.val = k.val then 1 else 0

/-- All-ones saliency over (F=2, T=1). -/
noncomputable def salOnesF2 : Sal 2 1 := fun _ _ => 1

/-- Concrete observation over (F=2, T=1, D=1). -/
noncomputable def obsF2 : Obs 2 1 1 := fun _ _ _ => Complex.I

/-- Concrete embedding over (F=2, T=1, E=1). -/
noncomputable def embF2 : Emb 2 1 1 := fun _ _ _ => 0

/-- All-ones quadratic form over (F=2, K=2, T=1). -/
noncomputable def qfF2K2 : Affil 2 2 1 := fun _ _ _ => 1

/-- A trainer over F=2, T=1, K=1 with trivial sub-fitters. -/
noncomputable def trainerF2K1 : GCACGMMTrainer 2 1 1 1 1 :=
  ⟨fun _ _ _ _ => ⟨fun _ _ _ => 0⟩,
   fun _ _ _ _ _ _ => ⟨fun _ => (fun _ _ _ => 0, fun _ _ _ => 0)⟩⟩

/-- Single-class affiliation over (F=2, K=1, T=1), identically 1: it sums to
1 over the class axis at every (f, t). -/
noncomputable def affF2K1 : Affil 2 1 1 := fun _ _ _ => 1

/-- Saliency over (F=2, T=1) that is 1 at frequency 0 and 0 at frequency 1:
non-negative with positive total, but with a zero per-frequency total. -/
noncomputable def salZeroRow : Sal 2 1 := fun f _ => if f.val = 0 then 1 else 0

/-- All-ones quadratic form over (F=2, K=1, T=1). -/
noncomputable def qfF2K1 : Affil 2 1 1 := fun _ _ _ => 1

/-- Recording trainer (all dimensions 1): its vMF fitter stores the sample
batch it receives inside the returned `log_pdf`, and its CACG fitter stores
the real and imaginary parts of the observation entry it receives inside
the returned log-density and quadratic form.  Used to observe which data
the sub-fitters are handed. -/
noncomputable def probeTrainer : GCACGMMTrainer 1 1 1 1 1 :=
  ⟨fun x _ _ _ => ⟨fun _ _ n => x n ⟨0, Nat.one_pos⟩⟩,
   fun x _ _ _ _ _ =>
     ⟨fun _ => (fun f _ t => (x f t 0).re, fun f _ t => (x f t 0).im)⟩⟩

/-- Probe observation, constant `2i`: its per-(f,t) L2 norm is 2, so the
up-front unit normalization visibly rescales it to `i`. -/
noncomputable def probeObs : Obs 1 1 1 := fun _ _ _ => 2 * Complex.I

/-- Probe embedding, constant 3: unit normalization would rescale it to 1,
so an unnormalized 3 is distinguishable from a normalized 1. -/
noncomputable def probeEmb : Emb 1 1 1 := fun _ _ _ => 3

/-- One-iteration fit of the recording trainer on the probe data. -/
noncomputable def probeFitResult : Except FitError (VMFCACGMM 1 1 1 1 1) :=
  probeTrainer.fit ⟨true, probeObs⟩ ⟨false, probeEmb⟩ (some (fun _ _ _ => 1))
    none (fun _ _ _ => 1) 1 (some (fun _ _ => 1)) 0 1 true true 0

/-! ## Properties of the posterior computation -/

lemma tiny_pos : 0 < tiny := zpow_pos (by norm_num) _

lemma tiny_le_one : tiny ≤ 1 := zpow_le_one_of_nonpos₀ (by norm_num) (by norm_num)

lemma shiftedExp_nonneg {F T K D E : ℕ} (m : VMFCACGMM F T K D E)
    (o : Obs F T D) (e : Emb F T E) (f : Fin F) (k : Fin K) (t : Fin T) :
    0 ≤ m.shiftedExp o e f k t :=
  (Real.exp_pos _).le

lemma one_le_sum_shiftedExp {F T K D E : ℕ} (hK : 0 < K)
    (m : VMFCACGMM F T K D E) (o : Obs F T D) (e : Emb F T E)
    (f : Fin F) (t : Fin T) :
    1 ≤ ∑ k, m.shiftedExp o e f k t := by
  haveI : Nonempty (Fin K) := ⟨⟨0, hK⟩⟩
  obtain ⟨k0, hk0⟩ := Finite.exists_max (fun k => m.jointLog o e f k t)
  have hsup : (⨆ j, m.jointLog o e f j t) = m.jointLog o e f k0 t :=
    le_antisymm (ciSup_le hk0)
      (le_ciSup (f := fun j => m.jointLog o e f j t)
        (Set.Finite.bddAbove (Set.finite_range (fun j => m.jointLog o e f j t))) k0)
  calc (1:ℝ) = m.shiftedExp o e f k0 t := by
        simp only [VMFCACGMM.shiftedExp]
        rw [hsup, sub_self, Real.exp_zero]
    _ ≤ ∑ k, m.shiftedExp o e f k t :=
        Finset.single_le_sum (f := fun k => m.shiftedExp o e f k t)
          (fun k _ => shiftedExp_nonneg m o e f k t) (Finset.mem_univ k0)

lemma denom_pos {F T K D E : ℕ} (m : VMFCACGMM F T K D E)
    (o : Obs F T D) (e : Emb F T E) (f : Fin F) (t : Fin T) :
    0 < m.denom o e f t :=
  lt_of_lt_of_le tiny_pos (le_max_right _ _)

lemma denom_eq_sum {F T K D E : ℕ} (hK : 0 < K) (m : VMFCACGMM F T K D E)
    (o : Obs F T D) (e : Emb F T E) (f : Fin F) (t : Fin T) :
    m.denom o e f t = ∑ k, m.shiftedExp o e f k t :=
  max_eq_left (tiny_le_one.trans (one_le_sum_shiftedExp hK m o e f t))

lemma predict_entry_nonneg {F T K D E : ℕ} (m : VMFCACGMM F T K D E)
    (o : Obs F T D) (e : Emb F T E) (f : Fin F) (k : Fin K) (t : Fin T) :
    0 ≤ (m._predict o e).1 f k t :=
  div_nonneg (shiftedExp_nonneg m o e f k t) (denom_pos m o e f t).le

lemma predict_row_sum_one {F T K D E : ℕ} (hK : 0 < K)
    (m : VMFCACGMM F T K D E) (o : Obs F T D) (e : Emb F T E)
    (f : Fin F) (t : Fin T) :
    ∑ k, (m._predict o e).1 f k t = 1 := by
  simp only [VMFCACGMM._predict]
  rw [← Finset.sum_div, ← denom_eq_sum hK m o e f t]
  exact div_self (denom_pos m o e f t).ne'

/-- C1: for every valid call to `predict` (complex observation, real
embedding, at least one class), the call succeeds and the returned
affiliation is everywhere non-negative and sums to 1 over the class axis at
every (f, t). -/
theorem predict_affiliation_nonneg_sum_one {F T K D E : ℕ} (hK : 0 < K)
    (m : VMFCACGMM F T K D E) (ov : Obs F T D) (ev : Emb F T E) :
    m.predict ⟨true, ov⟩ ⟨false, ev⟩ = Except.ok (m.predictBody ov ev) ∧
    (∀ f k t, 0 ≤ m.predictBody ov ev f k t) ∧
    (∀ f t, ∑ k, m.predictBody ov ev f k t = 1) := by
  refine ⟨rfl, ?_, ?_⟩
  · intro f k t
    exact predict_entry_nonneg m (unitNormObs ov) (unitNormEmb ev) f k t
  · intro f t
    exact predict_row_sum_one hK m (unitNormObs ov) (unitNormEmb ev) f t

/-- Witness for C1 at a concrete one-class, one-bin input. -/
theorem predict_affiliation_nonneg_sum_one_witness :
    witModel.predict ⟨true, witObsV⟩ ⟨false, witEmbV⟩
        = Except.ok (witModel.predictBody witObsV witEmbV) ∧
    (∀ f k t, 0 ≤ witModel.predictBody witObsV witEmbV f k t) ∧
    (∀ f t, ∑ k, witModel.predictBody witObsV witEmbV f k t = 1) :=
  predict_affiliation_nonneg_sum_one (by norm_num) witModel witObsV witEmbV

lemma cnorm_zero_row {D : ℕ} (v : Fin D → ℂ) (hz : ∀ d, v d = 0) :
    cnorm v = 0 := by
  unfold cnorm
  have h : ∀ d : Fin D, Complex.abs (v d) ^ 2 = 0 := by
    intro d; rw [hz d]; simp
  rw [Finset.sum_congr rfl (fun d _ => h d), Finset.sum_const, smul_zero,
    Real.sqrt_zero]

/-- C6: an all-zero D-vector at some (f0, t0) does not make `predict` fail:
the L2-norm divisor is floored at `tiny > 0`, the posterior denominator is
likewise floored positive, the call returns an affiliation, and the returned
row at (f0, t0) is non-negative and sums to 1 over the class axis. -/
theorem predict_zero_observation_guarded {F T K D E : ℕ} (hK : 0 < K)
    (m : VMFCACGMM F T K D E) (ov : Obs F T D) (ev : Emb F T E)
    (f0 : Fin F) (t0 : Fin T) (hz : ∀ d, ov f0 t0 d = 0) :
    max (cnorm (ov f0 t0)) tiny = tiny ∧ 0 < tiny ∧
    0 < m.denom (unitNormObs ov) (unitNormEmb ev) f0 t0 ∧
    m.predict ⟨true, ov⟩ ⟨false, ev⟩ = Except.ok (m.predictBody ov ev) ∧
    (∀ k, 0 ≤ m.predictBody ov ev f0 k t0) ∧
    ∑ k, m.predictBody ov ev f0 k t0 = 1 := by
  refine ⟨?_, tiny_pos, denom_pos m _ _ f0 t0, rfl, ?_, ?_⟩
  · rw [cnorm_zero_row (ov f0 t0) hz]
    exact max_eq_right tiny_pos.le
  · intro k
    exact predict_entry_nonneg m (unitNormObs ov) (unitNormEmb ev) f0 k t0
  · exact predict_row_sum_one hK m (unitNormObs ov) (unitNormEmb ev) f0 t0

/-- Witness for C6 at a concrete all-zero observation. -/
theorem predict_zero_observation_guarded_witness :
    max (cnorm (zeroObsV 0 0)) tiny = tiny ∧ 0 < tiny ∧
    0 < witModel.denom (unitNormObs zeroObsV) (unitNormEmb witEmbV) 0 0 ∧
    witModel.predict ⟨true, zeroObsV⟩ ⟨false, witEmbV⟩
        = Except.ok (witModel.predictBody zeroObsV witEmbV) ∧
    (∀ k, 0 ≤ witModel.predictBody zeroObsV witEmbV 0 k 0) ∧
    ∑ k, witModel.predictBody zeroObsV witEmbV 0 k 0 = 1 :=
  predict_zero_observation_guarded (by norm_num) witModel zeroObsV witEmbV 0 0
    (fun d => rfl)

/-! ## Error handling of the trainer entry point -/

lemma returnModel_ne_incompatible {F T K D E : ℕ}
    (r : Option (VMFCACGMM F T K D E)) :
    returnModel r ≠ Except.error FitError.incompatibleInputs := by
  cases r <;> simp [returnModel]

lemma returnModel_ne_obs {F T K D E : ℕ}
    (r : Option (VMFCACGMM F T K D E)) :
    returnModel r ≠ Except.error FitError.observationNotComplex := by
  cases r <;> simp [returnModel]

lemma returnModel_ne_emb {F T K D E : ℕ}
    (r : Option (VMFCACGMM F T K D E)) :
    returnModel r ≠ Except.error FitError.embeddingNotReal := by
  cases r <;> simp [returnModel]

/-- C4: `fit` fails with the incompatible-inputs configuration error exactly
when `initialization` and `num_classes` are both provided or both omitted
(the `assert xor(initialization is None, num_classes is None)`); when
exactly one is provided the check passes and the result is never that
error.  The error is the same for all data values: no computation on the
data feeds into it. -/
theorem fit_incompatible_inputs_iff {F T K D E : ℕ}
    (tr : GCACGMMTrainer F T K D E) (observation : TaggedObs F T D)
    (embedding : TaggedEmb F T E) (initialization : Option (Affil F K T))
    (num_classes : Option ℕ) (rand : Affil F K T) (iterations : ℕ)
    (saliency : Option (Sal F T)) (mc xc : ℝ) (hm tn : Bool) (fl : ℝ) :
    tr.fit observation embedding initialization num_classes rand iterations
        saliency mc xc hm tn fl = Except.error FitError.incompatibleInputs
      ↔ xor initialization.isNone num_classes.isNone = false := by
  by_cases hx : xor initialization.isNone num_classes.isNone = false
  · simp only [hx, iff_true]
    unfold GCACGMMTrainer.fit
    rw [if_pos hx]
  · simp only [hx, iff_false]
    unfold GCACGMMTrainer.fit
    rw [if_neg hx]
    split_ifs
    · simp
    · simp
    · simp only [iff_false]
      exact returnModel_ne_incompatible _

/-- C9: `fit` with `iterations = 0` and an otherwise valid configuration
(on either side of the exactly-one-of contract) never produces a model: the
loop body never binds `model`, so `return model` fails
(`UnboundLocalError`).  Python's `range(n)` is empty for every `n ≤ 0`, so
the non-positive case is the `0` case of the `ℕ`-valued iteration count. -/
theorem fit_zero_iterations_no_model {F T K D E : ℕ}
    (tr : GCACGMMTrainer F T K D E) (ov : Obs F T D) (ev : Emb F T E)
    (init : Affil F K T) (c : ℕ) (rand : Affil F K T)
    (saliency : Option (Sal F T)) (mc xc : ℝ) (hm tn : Bool) (fl : ℝ) :
    tr.fit ⟨true, ov⟩ ⟨false, ev⟩ (some init) none rand 0 saliency mc xc hm tn fl
        = Except.error FitError.unboundLocalModel ∧
    tr.fit ⟨true, ov⟩ ⟨false, ev⟩ none (some c) rand 0 saliency mc xc hm tn fl
        = Except.error FitError.unboundLocalModel :=
  ⟨rfl, rfl⟩

/-- C8: `predict` and `fit` (here with a valid exactly-one-of configuration)
fail with the dtype assertion exactly when the observation is not
complex-valued, respectively when the embedding is not real-valued, before
any numeric work (only the dtype tags, never the values, decide these
errors); with a complex observation and a real embedding the checks pass
and `predict` returns its affiliation. -/
theorem dtype_contract_predict_fit {F T K D E : ℕ}
    (m : VMFCACGMM F T K D E) (tr : GCACGMMTrainer F T K D E)
    (observation : TaggedObs F T D) (embedding : TaggedEmb F T E)
    (init : Affil F K T) (rand : Affil F K T) (iterations : ℕ)
    (saliency : Option (Sal F T)) (mc xc : ℝ) (hm tn : Bool) (fl : ℝ) :
    (m.predict observation embedding
        = Except.error FitError.observationNotComplex
      ↔ observation.isComplexObj = false) ∧
    (m.predict observation embedding = Except.error FitError.embeddingNotReal
      ↔ (observation.isComplexObj = true ∧ embedding.isComplexObj = true)) ∧
    (m.predict observation embedding
        = Except.ok (m.predictBody observation.val embedding.val)
      ↔ (observation.isComplexObj = true ∧ embedding.isComplexObj = false)) ∧
    (tr.fit observation embedding (some init) none rand iterations saliency
        mc xc hm tn fl = Except.error FitError.observationNotComplex
      ↔ observation.isComplexObj = false) ∧
    (tr.fit observation embedding (some init) none rand iterations saliency
        mc xc hm tn fl = Except.error FitError.embeddingNotReal
      ↔ (observation.isComplexObj = true ∧ embedding.isComplexObj = true)) := by
  obtain ⟨bo, ov⟩ := observation
  obtain ⟨be, ev⟩ := embedding
  cases bo <;> cases be <;>
    refine ⟨?_, ?_, ?_, ?_, ?_⟩ <;>
      simp [VMFCACGMM.predict, GCACGMMTrainer.fit,
        returnModel_ne_obs, returnModel_ne_emb]

/-! ## Structure of the EM loop -/

lemma fit_given_init_eq {F T K D E : ℕ} (tr : GCACGMMTrainer F T K D E)
    (ov : Obs F T D) (ev : Emb F T E) (init : Affil F K T)
    (rand : Affil F K T) (its : ℕ) (sal : Sal F T)
    (mc xc : ℝ) (hm tn : Bool) (fl : ℝ) :
    tr.fit ⟨true, ov⟩ ⟨false, ev⟩ (some init) none rand its (some sal)
        mc xc hm tn fl
      = returnModel (tr.fitStep (unitNormObs ov) ev sal mc xc hm tn fl init
          (fun _ _ _ => 1) its) := rfl

lemma fitStep_succ_eq {F T K D E : ℕ} (tr : GCACGMMTrainer F T K D E)
    (obs : Obs F T D) (emb : Emb F T E) (sal : Sal F T)
    (mc xc : ℝ) (hm tn : Bool) (fl : ℝ) (n : ℕ) :
    ∀ a q : Affil F K T,
      tr.fitStep obs emb sal mc xc hm tn fl a q (n + 1)
        = some (tr.lastModel obs emb sal mc xc hm tn fl
            ((tr.emUpdate obs emb sal mc xc hm tn fl)^[n] (a, q))) := by
  induction n with
  | zero =>
      intro a q
      rfl
  | succ n ih =>
      intro a q
      have h2 : tr.fitStep obs emb sal mc xc hm tn fl a q (n + 2)
          = tr.fitStep obs emb sal mc xc hm tn fl
              ((tr.emUpdate obs emb sal mc xc hm tn fl) (a, q)).1
              ((tr.emUpdate obs emb sal mc xc hm tn fl) (a, q)).2 (n + 1) := rfl
      rw [h2, ih, Prod.mk.eta, ← Function.iterate_succ_apply]

/-- C3: with a given initialization and `iterations = n + 1`, `fit` returns
`ok` of the model produced by the final M-step applied to the state reached
after exactly `n` EM rounds (each round: an M-step, then an E-step through
the newly produced model's `_predict`) from `(initialization, all-ones
quadratic form)`.  So `fit` runs exactly `iterations` M-steps, an E-step
follows every M-step except the last, and the returned model's parameters
are fitted from the affiliation of the previous round's E-step (the
initialization when `iterations = 1`); no final E-step is ever taken. -/
theorem fit_em_iteration_structure {F T K D E : ℕ}
    (tr : GCACGMMTrainer F T K D E) (ov : Obs F T D) (ev : Emb F T E)
    (init : Affil F K T) (rand : Affil F K T) (n : ℕ) (sal : Sal F T)
    (mc xc : ℝ) (hm tn : Bool) (fl : ℝ) :
    tr.fit ⟨true, ov⟩ ⟨false, ev⟩ (some init) none rand (n + 1) (some sal)
        mc xc hm tn fl
      = Except.ok (tr.lastModel (unitNormObs ov) ev sal mc xc hm tn fl
          ((tr.emUpdate (unitNormObs ov) ev sal mc xc hm tn fl)^[n]
            (init, fun _ _ _ => 1))) := by
  rw [fit_given_init_eq, fitStep_succ_eq]
  rfl

/-! ## The weight update of the M-step -/

/-- C2 (divergence witness): at F=2, T=1, K=2 with all-ones saliency and an
affiliation putting frequency f on class f, the weight computed by
`_m_step` is the per-frequency array `weight[f, k] = Σ_t aff·sal / Σ_t sal`
(shape (F, K)): its (0,0) entry is 1 and its (1,0) entry is 0, while the
claimed `(K,)` formula with shared (F,T)-sums, `Σ_{f,t} aff·sal / Σ_{f,t}
sal`, gives 1/2 for class 0.  The code thus contradicts the dataclass
annotation `weight: np.array  # (K,)`. -/
theorem mstep_weight_is_per_frequency :
    (trainerF2K2._m_step obsF2 embF2 qfF2K2 affF2K2 salOnesF2
        0 1 true true 0).weight 0 0 = 1 ∧
    (trainerF2K2._m_step obsF2 embF2 qfF2K2 affF2K2 salOnesF2
        0 1 true true 0).weight 1 0 = 0 ∧
    (∑ f, ∑ t, affF2K2 f 0 t * salOnesF2 f t) / (∑ f, ∑ t, salOnesF2 f t)
      = 1 / 2 := by
  refine ⟨?_, ?_, ?_⟩
  · simp [GCACGMMTrainer._m_step, affF2K2, salOnesF2, Fin.sum_univ_one]
  · simp [GCACGMMTrainer._m_step, affF2K2, salOnesF2, Fin.sum_univ_one]
  · simp only [affF2K2, salOnesF2, Fin.sum_univ_one, Fin.sum_univ_two, mul_one]
    rw [if_pos trivial, if_neg (by decide)]
    norm_num

/-- C5 (counterexample): with F=2, T=1, K=1, the all-ones single-class
affiliation (which sums to 1 over the class axis at every (f,t)) and the
non-negative saliency `[1, 0]` with positive total, the model returned by
`_m_step` has a weight whose class-axis sum at frequency 1 is 0/0 = 0, not
1: a positive overall saliency total does not make every per-frequency
denominator `Σ_t saliency[f,t]` non-zero. -/
theorem mstep_weight_sum_one_counterexample :
    (∀ f t, ∑ k, affF2K1 f k t = 1) ∧
    (∀ f t, 0 ≤ salZeroRow f t) ∧
    (0 < ∑ f, ∑ t, salZeroRow f t) ∧
    ¬ (∀ f, ∑ k, (trainerF2K1._m_step obsF2 embF2 qfF2K1 affF2K1 salZeroRow
        0 1 true true 0).weight f k = 1) := by
  refine ⟨?_, ?_, ?_, ?_⟩
  · intro f t
    simp [affF2K1, Fin.sum_univ_one]
  · intro f t
    by_cases h : f.val = 0 <;> simp [salZeroRow, h]
  · simp only [salZeroRow, Fin.sum_univ_one, Fin.sum_univ_two]
    rw [if_pos (by decide), if_neg (by decide)]
    norm_num
  · intro h
    have h1 := h 1
    rw [Fin.sum_univ_one] at h1
    have h2 : (trainerF2K1._m_step obsF2 embF2 qfF2K1 affF2K1 salZeroRow
        0 1 true true 0).weight 1 0
        = (∑ t, affF2K1 1 0 t * salZeroRow 1 t) / (∑ t, salZeroRow 1 t) := rfl
    rw [h2] at h1
    rw [Fin.sum_univ_one, Fin.sum_univ_one] at h1
    simp [affF2K1, salZeroRow] at h1

lemma mstep_weight_row_sum_one {F T K D E : ℕ} (tr : GCACGMMTrainer F T K D E)
    (obs : Obs F T D) (emb : Emb F T E) (qf aff : Affil F K T) (sal : Sal F T)
    (mc xc : ℝ) (hm tn : Bool) (fl : ℝ) (f : Fin F)
    (haff : ∀ t, ∑ k, aff f k t = 1) (hs : ∑ t, sal f t ≠ 0) :
    ∑ k, (tr._m_step obs emb qf aff sal mc xc hm tn fl).weight f k = 1 := by
  have hw : ∀ k, (tr._m_step obs emb qf aff sal mc xc hm tn fl).weight f k
      = (∑ t, aff f k t * sal f t) / (∑ t, sal f t) := fun k => rfl
  simp only [hw]
  rw [← Finset.sum_div, Finset.sum_comm]
  have h2 : ∀ t : Fin T, ∑ k, aff f k t * sal f t = sal f t := by
    intro t
    rw [← Finset.sum_mul, haff t, one_mul]
  rw [Finset.sum_congr rfl (fun t _ => h2 t)]
  exact div_self hs

lemma emUpdate_iterate_row_sum_one {F T K D E : ℕ} (hK : 0 < K)
    (tr : GCACGMMTrainer F T K D E) (obs : Obs F T D) (emb : Emb F T E)
    (sal : Sal F T) (mc xc : ℝ) (hm tn : Bool) (fl : ℝ)
    (init qf0 : Affil F K T) (hinit : ∀ f t, ∑ k, init f k t = 1) (n : ℕ) :
    ∀ f t, ∑ k,
      ((tr.emUpdate obs emb sal mc xc hm tn fl)^[n] (init, qf0)).1 f k t = 1 := by
  induction n with
  | zero => exact hinit
  | succ n ih =>
      intro f t
      rw [Function.iterate_succ_apply']
      exact predict_row_sum_one hK _ obs emb f t

/-- C5 (amended): if every (f, t) row of the initialization sums to 1 over
the class axis, the saliency is non-negative and every per-frequency
saliency total `Σ_t saliency[f, t]` is positive, then for any number of EM
iterations the fitted model's weight sums to 1 over the class axis at every
frequency; the invariant propagates because every E-step affiliation again
sums to 1 over the class axis. -/
theorem fit_weight_rows_sum_one {F T K D E : ℕ} (hK : 0 < K)
    (tr : GCACGMMTrainer F T K D E) (ov : Obs F T D) (ev : Emb F T E)
    (init rand : Affil F K T) (sal : Sal F T) (n : ℕ)
    (mc xc : ℝ) (hm tn : Bool) (fl : ℝ)
    (hinit : ∀ f t, ∑ k, init f k t = 1)
    (hsal0 : ∀ f t, 0 ≤ sal f t)
    (hsal : ∀ f, 0 < ∑ t, sal f t) :
    ∃ model, tr.fit ⟨true, ov⟩ ⟨false, ev⟩ (some init) none rand (n + 1)
        (some sal) mc xc hm tn fl = Except.ok model ∧
      ∀ f, ∑ k, model.weight f k = 1 := by
  refine ⟨tr.lastModel (unitNormObs ov) ev sal mc xc hm tn fl
      ((tr.emUpdate (unitNormObs ov) ev sal mc xc hm tn fl)^[n]
        (init, fun _ _ _ => 1)), ?_, ?_⟩
  · rw [fit_given_init_eq, fitStep_succ_eq]
    rfl
  · intro f
    have hrows := emUpdate_iterate_row_sum_one hK tr (unitNormObs ov) ev sal
      mc xc hm tn fl init (fun _ _ _ => 1) hinit n
    exact mstep_weight_row_sum_one tr (unitNormObs ov) ev _ _ sal mc xc hm tn
      fl f (fun t => hrows f t) (hsal f).ne'

/-- Witness for the amended C5 at a concrete one-class input with one EM
iteration. -/
theorem fit_weight_rows_sum_one_witness :
    ∃ model, probeTrainer.fit ⟨true, witObsV⟩ ⟨false, witEmbV⟩
        (some (fun _ _ _ => 1)) none (fun _ _ _ => 1) 1
        (some (fun _ _ => 1)) 0 1 true true 0 = Except.ok model ∧
      ∀ f, ∑ k, model.weight f k = 1 :=
  fit_weight_rows_sum_one (by norm_num) probeTrainer witObsV witEmbV
    (fun _ _ _ => 1) (fun _ _ _ => 1) (fun _ _ => 1) 0 0 1 true true 0
    (fun f t => by simp [Fin.sum_univ_one])
    (fun f t => by norm_num)
    (fun f => by norm_num [Fin.sum_univ_one])

/-! ## Normalization policy of the entry points -/

lemma cnorm_div_real {D : ℕ} (v : Fin D → ℂ) (c : ℝ) (hc : 0 < c) :
    cnorm (fun d => v d / (c:ℂ)) = cnorm v / c := by
  unfold cnorm
  have h1 : ∀ d : Fin D,
      Complex.abs (v d / (c:ℂ)) ^ 2 = Complex.abs (v d) ^ 2 / c ^ 2 := by
    intro d
    rw [map_div₀, Complex.abs_ofReal, abs_of_pos hc, div_pow]
  rw [Finset.sum_congr rfl (fun d _ => h1 d), ← Finset.sum_div,
    Real.sqrt_div (by positivity), Real.sqrt_sq hc.le]

lemma unitNormObs_norm {F T D : ℕ} (x : Obs F T D) (f : Fin F) (t : Fin T)
    (hn : tiny ≤ cnorm (x f t)) : cnorm (unitNormObs x f t) = 1 := by
  have hpos : 0 < cnorm (x f t) := lt_of_lt_of_le tiny_pos hn
  have hx : unitNormObs x f t = fun d => x f t d / ((cnorm (x f t) : ℝ) : ℂ) := by
    funext d
    simp only [unitNormObs, max_eq_left hn]
  rw [hx, cnorm_div_real _ _ hpos, div_self hpos.ne']

lemma unitNormObs_idem {F T D : ℕ} (x : Obs F T D)
    (hn : ∀ f t, tiny ≤ cnorm (x f t)) :
    unitNormObs (unitNormObs x) = unitNormObs x := by
  funext f t d
  show unitNormObs x f t d / ((max (cnorm (unitNormObs x f t)) tiny : ℝ) : ℂ)
      = unitNormObs x f t d
  rw [unitNormObs_norm x f t (hn f t), max_eq_left tiny_le_one]
  simp

lemma unitNormObs_probe : unitNormObs probeObs 0 0 0 = Complex.I := by
  have hcn : cnorm (probeObs 0 0) = 2 := by
    unfold cnorm probeObs
    rw [Fin.sum_univ_one]
    have habs : Complex.abs (2 * Complex.I) = 2 := by simp
    rw [habs]
    exact Real.sqrt_sq (by norm_num)
  show probeObs 0 0 0 / ((max (cnorm (probeObs 0 0)) tiny : ℝ) : ℂ) = Complex.I
  rw [hcn, max_eq_left (tiny_le_one.trans one_le_two)]
  have hc : ((2:ℝ):ℂ) = 2 := by norm_num
  show 2 * Complex.I / ((2:ℝ):ℂ) = Complex.I
  rw [hc, mul_comm, mul_div_assoc, div_self (by norm_num : (2:ℂ) ≠ 0), mul_one]

lemma unitNormEmb_probe : unitNormEmb probeEmb 0 0 0 = 1 := by
  have hrn : rnorm (probeEmb 0 0) = 3 := by
    unfold rnorm probeEmb
    rw [Fin.sum_univ_one]
    exact Real.sqrt_sq (by norm_num)
  show probeEmb 0 0 0 / max (rnorm (probeEmb 0 0)) tiny = 1
  rw [hrn, max_eq_left (tiny_le_one.trans (by norm_num))]
  show (3:ℝ) / 3 = 1
  norm_num

/-- C7: `fit` unit-normalizes the observation exactly once, up front (so
pre-normalizing an observation whose rows clear the tiny floor changes
nothing), and never normalizes the embedding at top level.  Concretely, a
one-iteration fit with a recording trainer on the constant-`2i` observation
and constant-`3` embedding hands the CACG fitter the unit-normalized
observation `i` (real part 0, imaginary part 1 — not the raw `2i`) while
the vMF fitter receives the raw embedding value 3, not the unit-normalized
1 that `predict` would have produced. -/
theorem fit_normalizes_observation_not_embedding {F T K D E : ℕ}
    (tr : GCACGMMTrainer F T K D E) (ov : Obs F T D) (ev : Emb F T E)
    (init rand : Affil F K T) (its : ℕ) (sal : Sal F T)
    (mc xc : ℝ) (hm tn : Bool) (fl : ℝ)
    (hn : ∀ f t, tiny ≤ cnorm (ov f t)) :
    tr.fit ⟨true, unitNormObs ov⟩ ⟨false, ev⟩ (some init) none rand its
        (some sal) mc xc hm tn fl
      = tr.fit ⟨true, ov⟩ ⟨false, ev⟩ (some init) none rand its (some sal)
          mc xc hm tn fl
    ∧ ∃ m, probeFitResult = Except.ok m
        ∧ m.vmf.log_pdf (fun _ _ => 0) ⟨0, Nat.one_pos⟩ ⟨0, Nat.one_pos⟩ = 3
        ∧ unitNormEmb probeEmb 0 0 0 = 1
        ∧ m.vmf.log_pdf (fun _ _ => 0) ⟨0, Nat.one_pos⟩ ⟨0, Nat.one_pos⟩
            ≠ unitNormEmb probeEmb 0 0 0
        ∧ probeObs 0 0 0 = 2 * Complex.I
        ∧ (m.cacg.log_pdf_qf probeObs).1 0 0 0 = 0
        ∧ (m.cacg.log_pdf_qf probeObs).2 0 0 0 = 1 := by
  constructor
  · rw [fit_given_init_eq, fit_given_init_eq, unitNormObs_idem ov hn]
  · refine ⟨probeTrainer._m_step (unitNormObs probeObs) probeEmb
        (fun _ _ _ => 1) (fun _ _ _ => 1) (fun _ _ => 1) 0 1 true true 0,
      ?_, rfl, unitNormEmb_probe, ?_, rfl, ?_, ?_⟩
    · show probeTrainer.fit ⟨true, probeObs⟩ ⟨false, probeEmb⟩
          (some (fun _ _ _ => 1)) none (fun _ _ _ => 1) 1
          (some (fun _ _ => 1)) 0 1 true true 0 = _
      rw [fit_given_init_eq, fitStep_succ_eq]
      rfl
    · rw [unitNormEmb_probe]
      show (3:ℝ) ≠ 1
      norm_num
    · show (unitNormObs probeObs 0 0 0).re = 0
      rw [unitNormObs_probe]
      exact Complex.I_re
    · show (unitNormObs probeObs 0 0 0).im = 1
      rw [unitNormObs_probe]
      exact Complex.I_im

/-- Witness for C7 at a concrete norm-1 observation. -/
theorem fit_normalizes_observation_not_embedding_witness :
    probeTrainer.fit ⟨true, unitNormObs witObsV⟩ ⟨false, witEmbV⟩
        (some (fun _ _ _ => 1)) none (fun _ _ _ => 1) 1 (some (fun _ _ => 1))
        0 1 true true 0
      = probeTrainer.fit ⟨true, witObsV⟩ ⟨false, witEmbV⟩
          (some (fun _ _ _ => 1)) none (fun _ _ _ => 1) 1
          (some (fun _ _ => 1)) 0 1 true true 0
    ∧ ∃ m, probeFitResult = Except.ok m
        ∧ m.vmf.log_pdf (fun _ _ => 0) ⟨0, Nat.one_pos⟩ ⟨0, Nat.one_pos⟩ = 3
        ∧ unitNormEmb probeEmb 0 0 0 = 1
        ∧ m.vmf.log_pdf (fun _ _ => 0) ⟨0, Nat.one_pos⟩ ⟨0, Nat.one_pos⟩
            ≠ unitNormEmb probeEmb 0 0 0
        ∧ probeObs 0 0 0 = 2 * Complex.I
        ∧ (m.cacg.log_pdf_qf probeObs).1 0 0 0 = 0
        ∧ (m.cacg.log_pdf_qf probeObs).2 0 0 0 = 1 :=
  fit_normalizes_observation_not_embedding probeTrainer witObsV witEmbV
    (fun _ _ _ => 1) (fun _ _ _ => 1) 1 (fun _ _ => 1) 0 1 true true 0
    (fun f t => by
      have h1 : cnorm (witObsV f t) = 1 := by
        unfold cnorm witObsV
        rw [Fin.sum_univ_one]
        simp
      rw [h1]
      exact tiny_le_one)
